import Mathlib

/-!
# Hotel Translation relay core — shallow embedding

A shallow embedding of the session/room relay core of the Hotel
Translation server (`src/server.js`, `src/sarvam_integration.js` and the
near-duplicate variants under `src/unnamed/`), together with proofs about
the claims of the specification.

Conventions of the embedding:
* JavaScript `Map` objects (`activeRooms`, `userRoles`) are association
  lists with `assocGet` / `assocSet` / `assocErase` mirroring
  `Map.get` / `Map.set` / `Map.delete`.
* JavaScript `Set<socketId>` objects are duplicate-free `List Nat`
  (insertion-ordered, as in JS), with `setAdd` / `setDelete`.
* An optional / possibly-`undefined` field is `Option String`; the
  JavaScript truthiness test `if (x)` on a string-valued expression is
  `strTruthy` (`undefined` and the empty string are falsy), and a
  destructuring default `{ language = 'hi-IN' }` is `Option.getD`
  (the default fires for `undefined` only).
* Asynchronous collaborator calls (`sarvamClient.transcribe`,
  `sarvamClient.translate`) are oracle parameters returning
  `Except String _`; `.error` models the promise rejecting.  Each message
  handler returns, besides its ordered list of emitted events, a `Bool`
  recording whether the translation collaborator was invoked.
* Socket message ids and timestamps (`msg_${Date.now()}_…`) are fresh
  nondeterministic data unused by every claim; they are omitted from the
  embedded `MessageData`.
-/

/- ------------------------- assoc-list Map helpers ------------------------ -/

/-- JavaScript `Map.get`: first binding of the key, if any. -/
def assocGet {α β : Type} [DecidableEq α] : List (α × β) → α → Option β
  | [], _ => none
  | (k', v) :: rest, k => if k' = k then some v else assocGet rest k

/-- JavaScript `Map.set`: replace the first binding of the key, or append a new one. -/
def assocSet {α β : Type} [DecidableEq α] : List (α × β) → α → β → List (α × β)
  | [], k, v => [(k, v)]
  | (k', v') :: rest, k, v =>
      if k' = k then (k, v) :: rest else (k', v') :: assocSet rest k v

/-- JavaScript `Map.delete`: remove every binding of the key. -/
def assocErase {α β : Type} [DecidableEq α] : List (α × β) → α → List (α × β)
  | [], _ => []
  | (k', v') :: rest, k =>
      if k' = k then assocErase rest k else (k', v') :: assocErase rest k

/- --------------------------- JS Set helpers ------------------------------ -/

/-- JavaScript `Set.add`: append if absent (JS sets are insertion-ordered). -/
def setAdd (s : List Nat) (x : Nat) : List Nat :=
  if x ∈ s then s else s ++ [x]

/-- JavaScript `Set.delete`: remove the element. -/
def setDelete (s : List Nat) (x : Nat) : List Nat :=
  s.filter (fun y => y ≠ x)

/- ------------------------- JS string truthiness -------------------------- -/

/-- Truthiness of a possibly-`undefined` string: `undefined` and `''` are
falsy. -/
def strTruthy : Option String → Bool
  | none => false
  | some s => s ≠ ""

/-- JavaScript `a || b` on strings: the left operand unless it is falsy (empty). -/
def orElseStr (s fallback : String) : String :=
  if s = "" then fallback else s

/- ----------------------------- Data model -------------------------------- -/

/-- One entry of `userRoles`: the (room, role, language) binding of a
connection (`userRoles.set(socket.id, { room, role, language })`). -/
structure UserBinding where
  room : String
  role : String
  language : String
deriving DecidableEq, Repr

/-- One entry of `activeRooms`: `{ hotelName, createdAt, users: Set }`.
`createdAt` is wall-clock metadata unused by every claim and omitted. -/
structure RoomInfo where
  hotelName : String
  users : List Nat
deriving DecidableEq, Repr

/-- The server's mutable shared state: the two global `Map`s. -/
structure ServerState where
  activeRooms : List (String × RoomInfo)
  userRoles : List (Nat × UserBinding)
deriving DecidableEq, Repr

/-- The state at process start: both maps empty. -/
def initState : ServerState := { activeRooms := [], userRoles := [] }

/-- The table `languageNames` from `server.js`: display names for the UI codes. -/
def languageNames (code : String) : Option String :=
  assocGet
    [("hi-IN", "Hindi"), ("bn-IN", "Bengali"), ("ta-IN", "Tamil"),
     ("te-IN", "Telugu"), ("mr-IN", "Marathi"), ("gu-IN", "Gujarati"),
     ("kn-IN", "Kannada"), ("ml-IN", "Malayalam"), ("pa-IN", "Punjabi"),
     ("or-IN", "Odia"), ("en-IN", "English")] code

/-- Display name with fallback: `languageNames[l] || l`. -/
def langDisplay (code : String) : String := (languageNames code).getD code

/- ------------------------------ Events ----------------------------------- -/

/-- Who an emitted event is addressed to: `socket.emit` (sender only),
`io.to(room).emit` (every member), `socket.to(room).emit` (other
members). -/
inductive Recipient where
  | toSender : Recipient
  | toRoom : String → Recipient
  | toOthers : String → Recipient
deriving DecidableEq, Repr

/-- One `original` / `translated` block of a translation event. -/
structure LangText where
  text : String
  language : String
  languageName : String
deriving DecidableEq, Repr

/-- The payload of a `translation` broadcast (id / timestamp omitted:
nondeterministic freshness data unused by the claims). -/
structure MessageData where
  room : String
  speaker : String
  original : LangText
  translated : LangText
  confidence : ℚ
  speakerId : String
  ttsAvailable : Bool
deriving DecidableEq, Repr

/-- Outbound socket events of the relay core.  `errorEvt` carries the
`message` field and the optional `error` detail field; `roomJoined` /
`userJoined` carry the role exactly as received (the unvalidated join
variant can forward an `undefined` role, hence `Option String`). -/
inductive Event where
  | errorEvt : String → Option String → Event
  | roomJoined : String → Option String → String → Event
  | userJoined : Option String → String → Nat → Event
  | userLeft : String → Nat → Event
  | roomStats : Nat → String → Event
  | processingStatus : String → Option String → Event
  | translation : MessageData → Event
  | roomInfoEvt : String → Nat → Event
deriving DecidableEq, Repr

/-- A single addressed emission. -/
abbrev Emit := Recipient × Event

/- ---------------------- Language routing (server.js) --------------------- -/

/-- The helper `resolveTargetLanguage(role, socketId, explicitTarget)` from
`server.js`: explicit target wins when truthy; a guest targets `en-IN`;
otherwise the sender's own stored language, `|| 'hi-IN'`. -/
def resolveTargetLanguage (st : ServerState) (role : String) (socketId : Nat)
    (explicitTarget : Option String) : String :=
  if strTruthy explicitTarget then explicitTarget.getD "" else
  if role = "guest" then "en-IN" else
  match assocGet st.userRoles socketId with
  | some b => orElseStr b.language "hi-IN"
  | none => "hi-IN"

/- --------------- Translation collaborators (both clients) ---------------- -/

/-- Result shape shared by both translate clients. -/
structure TranslationResult where
  text : String
  source_language : String
  target_language : String
  confidence : ℚ
deriving DecidableEq, Repr

/-- Body of an HTTP `/translate` response (`res.data`), fields optional. -/
structure HttpTranslateResp where
  translated_text : Option String
  source_language : Option String
  target_language : Option String
  confidence : Option ℚ
deriving DecidableEq, Repr

/-- JavaScript `q || fallback` on a number: `0` is falsy in JavaScript. -/
def orElseQ (q fallback : ℚ) : ℚ := if q = 0 then fallback else q

/-- The valid-codes table of `SarvamClient.validateLanguageCode`
(`sarvam_integration.js`). -/
def validCodesList : List String :=
  ["hi-IN", "en-IN", "bn-IN", "gu-IN", "kn-IN", "ml-IN", "mr-IN", "od-IN",
   "pa-IN", "ta-IN", "te-IN", "as-IN", "brx-IN", "doi-IN", "ks-IN", "kok-IN",
   "mai-IN", "mni-IN", "ne-IN", "or-IN", "sa-IN", "sd-IN", "ur-IN"]

/-- The base-code map of `SarvamClient.validateLanguageCode`. -/
def codeMapLookup (base : String) : Option String :=
  assocGet
    [("hi", "hi-IN"), ("hindi", "hi-IN"), ("en", "en-IN"), ("english", "en-IN"),
     ("bn", "bn-IN"), ("bengali", "bn-IN"), ("bangla", "bn-IN"),
     ("gu", "gu-IN"), ("gujarati", "gu-IN"), ("kn", "kn-IN"), ("kannada", "kn-IN"),
     ("ml", "ml-IN"), ("malayalam", "ml-IN"), ("mr", "mr-IN"), ("marathi", "mr-IN"),
     ("od", "od-IN"), ("or", "od-IN"), ("odia", "od-IN"), ("oriya", "od-IN"),
     ("pa", "pa-IN"), ("punjabi", "pa-IN"), ("ta", "ta-IN"), ("tamil", "ta-IN"),
     ("te", "te-IN"), ("telugu", "te-IN")] base

/-- Drop leading whitespace characters of a character list. -/
def dropWhitespace : List Char → List Char
  | [] => []
  | c :: cs => if c.isWhitespace then dropWhitespace cs else c :: cs

/-- JavaScript `String.prototype.trim()` (kernel-computable model working
on the character list). -/
def jsTrim (s : String) : String :=
  ⟨(dropWhitespace ((dropWhitespace s.data).reverse)).reverse⟩

/-- Lower-case an ASCII letter (the language codes are ASCII). -/
def asciiToLower (c : Char) : Char :=
  if 65 ≤ c.toNat ∧ c.toNat ≤ 90 then Char.ofNat (c.toNat + 32) else c

/-- JavaScript `String.prototype.toLowerCase()` on ASCII input. -/
def jsToLower (s : String) : String :=
  ⟨s.data.map asciiToLower⟩

/-- The prefix before the first dash: JavaScript `s.split('-')[0]`. -/
def takeUntilDash : List Char → List Char
  | [] => []
  | c :: cs => if c = '-' then [] else c :: takeUntilDash cs

/-- JavaScript `s.split('-')[0]`. -/
def jsSplitHeadDash (s : String) : String :=
  ⟨takeUntilDash s.data⟩

/-- The method `SarvamClient.validateLanguageCode(code, context)` from
`sarvam_integration.js`: normalization of a possibly-absent language code;
`none` models `undefined`/`null`. -/
def validateLanguageCode (code : Option String) (context : String) : String :=
  match code with
  | none => if context = "tts" then "hi-IN" else "unknown"
  | some c =>
    if c = "" then (if context = "tts" then "hi-IN" else "unknown")
    else
      let languageCode := jsTrim c
      let lc := jsToLower languageCode
      if lc = "unknown" ∨ lc = "auto" then
        (if context = "tts" then "hi-IN"
         else if context = "translate-source" then "auto"
         else "unknown")
      else if languageCode ∈ validCodesList then
        (if languageCode = "or-IN" then "od-IN" else languageCode)
      else
        let baseCode := jsSplitHeadDash lc
        match codeMapLookup baseCode with
        | some mapped => mapped
        | none => if context = "tts" then "hi-IN" else "unknown"

/-- The method `SarvamClient.translate` from `sarvam_integration.js`, with the HTTP
POST replaced by an oracle.  The second component records whether the HTTP
request was issued.  On an HTTP error the method never throws: both catch
branches return the original text with confidence `0` (the `error` string
field of the fallback object is not observed by any claim and omitted). -/
def sarvamClientTranslate (text sourceLanguage targetLanguage : String)
    (httpOracle : Except String HttpTranslateResp) : TranslationResult × Bool :=
  if jsTrim text = "" then
    ({ text := "", source_language := sourceLanguage,
       target_language := targetLanguage, confidence := 1 }, false)
  else
    let sourceLang := if sourceLanguage = "auto" then "auto"
      else validateLanguageCode (some sourceLanguage) "translate-source"
    let targetLang := validateLanguageCode (some targetLanguage) "translate-target"
    if sourceLang = targetLang ∧ sourceLang ≠ "auto" then
      ({ text := text, source_language := sourceLang,
         target_language := targetLang, confidence := 1 }, false)
    else
      match httpOracle with
      | Except.ok r =>
          ({ text := orElseStr (r.translated_text.getD "") text,
             source_language := orElseStr (r.source_language.getD "") sourceLang,
             target_language := orElseStr (r.target_language.getD "") targetLang,
             confidence := orElseQ (r.confidence.getD 0) (19/20) }, true)
      | Except.error _ =>
          ({ text := text, source_language := sourceLanguage,
             target_language := targetLanguage, confidence := 0 }, true)

/-- The method `SarvamAIClient.translate` (the client inlined in `server.js`): always
issues the HTTP request and rethrows failures.  The second component
records that the request was made. -/
def sarvamAIClientTranslate (text sourceLanguage targetLanguage : String)
    (httpOracle : Except String HttpTranslateResp) :
    Except String TranslationResult × Bool :=
  match httpOracle with
  | Except.ok r =>
      (Except.ok
        { text := orElseStr (r.translated_text.getD "") text,
          source_language := sourceLanguage,
          target_language := targetLanguage,
          confidence := (r.confidence.getD (19/20)) }, true)
  | Except.error e => (Except.error ("Failed to translate text: " ++ e), true)

/- --------------------------- Message handlers ---------------------------- -/

/-- Inbound `text_message` payload.  `room`, `role` are embedded as strings
(the claims quantify over messages naming a room); `text`, `language`,
`targetLanguage` may be absent (`none` models `undefined`). -/
structure TextMsg where
  room : String
  role : String
  text : Option String
  language : Option String
  targetLanguage : Option String
deriving Repr

/-- Result of the recognition collaborator as consumed by the audio
handler (`stt.transcript`, `stt.confidence`, and
`stt.diarized_transcript?.entries?.[0]?.speaker_id`). -/
structure SttResult where
  transcript : String
  confidence : ℚ
  speakerId : Option String
deriving DecidableEq, Repr

/-- Inbound `audio_message` payload (the raw audio bytes are consumed only
by the recognition oracle and are not modeled). -/
structure AudioMsg where
  room : String
  role : String
  language : Option String
  targetLanguage : Option String
deriving Repr

/-- The `text_message` handler of `server.js`: authorization check, then
`processing_status` broadcasts around the translation collaborator call.
Returns the ordered emissions and whether the translation collaborator was
invoked. -/
def textMessageHandler (st : ServerState) (senderId : Nat) (data : TextMsg)
    (translateOracle : String → String → String → Except String TranslationResult) :
    List Emit × Bool :=
  match assocGet st.userRoles senderId with
  | none => ([(Recipient.toSender, Event.errorEvt "Not authorized for this room" none)], false)
  | some userInfo =>
    if userInfo.room ≠ data.room then
      ([(Recipient.toSender, Event.errorEvt "Not authorized for this room" none)], false)
    else
      let language := data.language.getD "hi-IN"
      let srcLangUI := orElseStr language
        (if data.role = "guest" then userInfo.language else "en-IN")
      let tgtLangUI := resolveTargetLanguage st data.role senderId data.targetLanguage
      let textStr := data.text.getD ""
      let statusTranslating : Emit :=
        (Recipient.toRoom data.room, Event.processingStatus "translating" (some data.role))
      match translateOracle textStr srcLangUI tgtLangUI with
      | Except.error e =>
          ([statusTranslating,
            (Recipient.toSender, Event.errorEvt ("Translation failed: " ++ e) none),
            (Recipient.toRoom data.room, Event.processingStatus "error" none)], true)
      | Except.ok tr =>
          ([statusTranslating,
            (Recipient.toRoom data.room, Event.translation
              { room := data.room
                speaker := data.role
                original := { text := textStr, language := srcLangUI,
                              languageName := langDisplay srcLangUI }
                translated := { text := tr.text, language := tgtLangUI,
                                languageName := langDisplay tgtLangUI }
                confidence := 1
                speakerId := toString senderId
                ttsAvailable := true }),
            (Recipient.toRoom data.room, Event.processingStatus "complete" none)], true)

/-- The `audio_message` handler of `server.js`: authorization check, then
recognition and translation collaborator calls with `processing_status`
broadcasts; any rejection lands in the catch block (error to the sender,
`processing_status = error` to the room). -/
def audioMessageHandler (st : ServerState) (senderId : Nat) (data : AudioMsg)
    (transcribeOracle : Except String SttResult)
    (translateOracle : String → String → String → Except String TranslationResult) :
    List Emit × Bool :=
  match assocGet st.userRoles senderId with
  | none => ([(Recipient.toSender, Event.errorEvt "Not authorized for this room" none)], false)
  | some userInfo =>
    if userInfo.room ≠ data.room then
      ([(Recipient.toSender, Event.errorEvt "Not authorized for this room" none)], false)
    else
      let language := data.language.getD "hi-IN"
      let statusTranscribing : Emit :=
        (Recipient.toRoom data.room, Event.processingStatus "transcribing" (some data.role))
      match transcribeOracle with
      | Except.error e =>
          ([statusTranscribing,
            (Recipient.toSender, Event.errorEvt "Failed to process audio message" (some e)),
            (Recipient.toRoom data.room, Event.processingStatus "error" none)], false)
      | Except.ok stt =>
        let statusTranslating : Emit :=
          (Recipient.toRoom data.room, Event.processingStatus "translating" (some data.role))
        let srcLangUI := language
        let tgtLangUI := resolveTargetLanguage st data.role senderId data.targetLanguage
        match translateOracle stt.transcript srcLangUI tgtLangUI with
        | Except.error e =>
            ([statusTranscribing, statusTranslating,
              (Recipient.toSender, Event.errorEvt "Failed to process audio message" (some e)),
              (Recipient.toRoom data.room, Event.processingStatus "error" none)], true)
        | Except.ok tr =>
            ([statusTranscribing, statusTranslating,
              (Recipient.toRoom data.room, Event.translation
                { room := data.room
                  speaker := data.role
                  original := { text := stt.transcript, language := srcLangUI,
                                languageName := langDisplay srcLangUI }
                  translated := { text := tr.text, language := tgtLangUI,
                                  languageName := langDisplay tgtLangUI }
                  confidence := stt.confidence
                  speakerId := match stt.speakerId with
                    | some s => orElseStr s (toString senderId)
                    | none => toString senderId
                  ttsAvailable := true }),
              (Recipient.toRoom data.room, Event.processingStatus "complete" none)], true)

/-- The `get_room_info` handler of `server.js`: replies with `room_info`
when the room exists and emits nothing at all otherwise. -/
def getRoomInfoHandler (st : ServerState) (room : String) : List Emit :=
  match assocGet st.activeRooms room with
  | some info => [(Recipient.toSender, Event.roomInfoEvt info.hotelName info.users.length)]
  | none => []

/- ---------------------- Join / disconnect / cleanup ---------------------- -/

/-- Inbound `join_room` payload; every field may be absent. -/
structure JoinMsg where
  room : Option String
  role : Option String
  language : Option String
deriving Repr

/-- The map `activeRooms` after the sender leaves its previous room
(`if (rinfo) rinfo.users.delete(socket.id)`). -/
def roomsLeavePrev (rooms : List (String × RoomInfo)) (prevRoom : String)
    (sid : Nat) : List (String × RoomInfo) :=
  match assocGet rooms prevRoom with
  | some rinfo =>
      assocSet rooms prevRoom { rinfo with users := setDelete rinfo.users sid }
  | none => rooms

/-- The map `activeRooms` after implicit creation
(`if (!activeRooms.has(room)) activeRooms.set(room, …)`). -/
def roomsEnsure (rooms : List (String × RoomInfo)) (room : String) :
    List (String × RoomInfo) :=
  if (assocGet rooms room).isSome then rooms
  else assocSet rooms room { hotelName := "Unknown Hotel", users := [] }

/-- The map `activeRooms` after `activeRooms.get(room).users.add(socket.id)`. -/
def roomsAddMember (rooms : List (String × RoomInfo)) (room : String)
    (sid : Nat) : List (String × RoomInfo) :=
  match assocGet rooms room with
  | some rinfo =>
      assocSet rooms room { rinfo with users := setAdd rinfo.users sid }
  | none => rooms

/-- The state mutation performed by a (validated) join: leave the previous
room (`if (prev) …`), store the new binding, ensure the room exists, add
membership. -/
def joinStateUpdate (st : ServerState) (senderId : Nat)
    (room role language : String) : ServerState :=
  let rooms1 :=
    match assocGet st.userRoles senderId with
    | some prev =>
        if prev.room = "" then st.activeRooms
        else roomsLeavePrev st.activeRooms prev.room senderId
    | none => st.activeRooms
  { activeRooms := roomsAddMember (roomsEnsure rooms1 room) room senderId,
    userRoles := assocSet st.userRoles senderId
      { room := room, role := role, language := language } }

/-- The validated `join_room` handler of `server.js`: rejects when `room`
or `role` is missing/empty, otherwise leaves the previous room, stores the
new binding, ensures the room, adds membership and emits the join
notifications plus a stats broadcast. -/
def joinRoomHandler (st : ServerState) (senderId : Nat) (data : JoinMsg) :
    ServerState × List Emit :=
  if ¬ (strTruthy data.room ∧ strTruthy data.role) then
    (st, [(Recipient.toSender, Event.errorEvt "room and role are required" none)])
  else
    let room := data.room.getD ""
    let role := data.role.getD ""
    let language := data.language.getD "hi-IN"
    let st' := joinStateUpdate st senderId room role language
    let statsInfo := (assocGet st'.activeRooms room).getD
      { hotelName := "Unknown Hotel", users := [] }
    (st',
     [(Recipient.toSender, Event.roomJoined room (some role) (langDisplay language)),
      (Recipient.toOthers room, Event.userJoined (some role) (langDisplay language) senderId),
      (Recipient.toRoom room, Event.roomStats statsInfo.users.length statsInfo.hotelName)])

/-- The `disconnect` handler of `server.js` (without the deferred cleanup,
which is modeled separately as `cleanupFire`): removes membership from the
bound room, notifies the remaining members, erases the binding. -/
def disconnectHandler (st : ServerState) (senderId : Nat) :
    ServerState × List Emit :=
  match assocGet st.userRoles senderId with
  | none => (st, [])
  | some userInfo =>
    match assocGet st.activeRooms userInfo.room with
    | some info =>
        let info' : RoomInfo := { info with users := setDelete info.users senderId }
        ({ activeRooms := assocSet st.activeRooms userInfo.room info',
           userRoles := assocErase st.userRoles senderId },
         [(Recipient.toOthers userInfo.room, Event.userLeft userInfo.role senderId),
          (Recipient.toRoom userInfo.room, Event.roomStats info'.users.length info'.hotelName)])
    | none =>
        ({ st with userRoles := assocErase st.userRoles senderId }, [])

/-- The body of the deferred-cleanup `setTimeout` in the disconnect
handler: at fire time the room is re-fetched and deleted only when it
still exists and its membership is still empty. -/
def cleanupFire (st : ServerState) (room : String) : ServerState :=
  match assocGet st.activeRooms room with
  | some again =>
      if again.users.length = 0 then
        { st with activeRooms := assocErase st.activeRooms room }
      else st
  | none => st

/- ------------------ Unvalidated join variant (2nd server) ---------------- -/

/-- Binding as stored by the second (unvalidated) `join_room` variant: the
role is stored exactly as received and may be `undefined`. -/
structure UserBinding2 where
  room : String
  role : Option String
  language : String
deriving DecidableEq, Repr

/-- State of the second server variant. -/
structure ServerState2 where
  activeRooms : List (String × RoomInfo)
  userRoles : List (Nat × UserBinding2)
deriving DecidableEq, Repr

/-- Inbound payload for the unvalidated join variant, embedded on the
slice of events whose `room` field is a string (the variant performs no
validation; `role` may be absent). -/
structure JoinMsg2 where
  room : String
  role : Option String
  language : Option String
deriving Repr

/-- The second `join_room` handler variant (`server.js`, second document):
no validation of `room`/`role` — it binds the connection, creates the room
and emits the join notifications even when `role` is missing. -/
def joinRoomHandler2 (st : ServerState2) (senderId : Nat) (data : JoinMsg2) :
    ServerState2 × List Emit :=
  let language := data.language.getD "hi-IN"
  let rooms1 :=
    match assocGet st.userRoles senderId with
    | some prev =>
        if prev.room = "" then st.activeRooms
        else roomsLeavePrev st.activeRooms prev.room senderId
    | none => st.activeRooms
  let userRoles1 := assocSet st.userRoles senderId
    { room := data.room, role := data.role, language := language }
  let rooms3 := roomsAddMember (roomsEnsure rooms1 data.room) data.room senderId
  let st' : ServerState2 := { activeRooms := rooms3, userRoles := userRoles1 }
  let statsInfo := (assocGet rooms3 data.room).getD { hotelName := "Unknown Hotel", users := [] }
  (st',
   [(Recipient.toSender, Event.roomJoined data.room data.role (langDisplay language)),
    (Recipient.toOthers data.room, Event.userJoined data.role (langDisplay language) senderId),
    (Recipient.toRoom data.room, Event.roomStats statsInfo.users.length statsInfo.hotelName)])

/- ----------------------- Event sequences (for §8) ------------------------ -/

/-- The state-mutating inbound events of the relay core. -/
inductive ServerEvent where
  | joinRoom : Nat → JoinMsg → ServerEvent
  | disconnect : Nat → ServerEvent
  | cleanup : String → ServerEvent

/-- State transition of one inbound event. -/
def stepState (st : ServerState) : ServerEvent → ServerState
  | ServerEvent.joinRoom sid data => (joinRoomHandler st sid data).1
  | ServerEvent.disconnect sid => (disconnectHandler st sid).1
  | ServerEvent.cleanup room => cleanupFire st room

/-- Run a sequence of events from the initial state. -/
def runEvents (events : List ServerEvent) : ServerState :=
  events.foldl stepState initState

/-- Number of connections currently bound to a room. -/
def boundCount (st : ServerState) (r : String) : Nat :=
  (st.userRoles.filter (fun p => p.2.room = r)).length

/- ------------------- Spec-side routing rule (for §4.3) ------------------- -/

/-- Modelled from the spec's words, for comparison with
`resolveTargetLanguage` (§4.3: "the target is the language code bound to
the first other connection in the room whose role is the outward-facing
role"): scan the room's membership, skip the sender, and return the
language of the first guest found. -/
def specFirstGuestLanguage (st : ServerState) (room : String) (senderId : Nat) :
    Option String :=
  match assocGet st.activeRooms room with
  | some info =>
      ((info.users.filter (fun c => c ≠ senderId)).filterMap
        (fun c =>
          match assocGet st.userRoles c with
          | some b => if b.role = "guest" then some b.language else none
          | none => none)).head?
  | none => none

/- ------------------------- assoc-list map lemmas ------------------------- -/

theorem assocGet_set_self {α β : Type} [DecidableEq α]
    (m : List (α × β)) (k : α) (v : β) :
    assocGet (assocSet m k v) k = some v := by
  induction m with
  | nil => simp [assocSet, assocGet]
  | cons hd tl ih =>
    obtain ⟨k', v'⟩ := hd
    by_cases h : k' = k
    · subst h; simp [assocSet, assocGet]
    · simp [assocSet, assocGet, h, ih]

theorem assocGet_set_ne {α β : Type} [DecidableEq α]
    (m : List (α × β)) (k : α) (v : β) (k'' : α) (h : k ≠ k'') :
    assocGet (assocSet m k v) k'' = assocGet m k'' := by
  induction m with
  | nil => simp [assocSet, assocGet, h]
  | cons hd tl ih =>
    obtain ⟨k', v'⟩ := hd
    by_cases hk : k' = k
    · subst hk; simp [assocSet, assocGet, h]
    · simp [assocSet, assocGet, hk, ih]

theorem assocGet_erase_self {α β : Type} [DecidableEq α]
    (m : List (α × β)) (k : α) :
    assocGet (assocErase m k) k = none := by
  induction m with
  | nil => simp [assocErase, assocGet]
  | cons hd tl ih =>
    obtain ⟨k', v'⟩ := hd
    by_cases h : k' = k
    · subst h; simp [assocErase, ih]
    · simp [assocErase, assocGet, h, ih]

theorem assocGet_erase_ne {α β : Type} [DecidableEq α]
    (m : List (α × β)) (k : α) (k'' : α) (h : k ≠ k'') :
    assocGet (assocErase m k) k'' = assocGet m k'' := by
  induction m with
  | nil => simp [assocErase]
  | cons hd tl ih =>
    obtain ⟨k', v'⟩ := hd
    by_cases hk : k' = k
    · subst hk; simp [assocErase, assocGet, h, ih]
    · simp [assocErase, assocGet, hk, ih]

/-- Keys of an association list are duplicate-free. -/
def keysNodup {α β : Type} [DecidableEq α] (m : List (α × β)) : Prop :=
  (m.map Prod.fst).Nodup

theorem keysNodup_nil {α β : Type} [DecidableEq α] :
    keysNodup (α := α) (β := β) [] := by
  simp [keysNodup]

theorem mem_assocSet {α β : Type} [DecidableEq α]
    {m : List (α × β)} {k : α} {v : β} {x : α × β}
    (hx : x ∈ assocSet m k v) : x.1 = k ∨ x ∈ m := by
  induction m with
  | nil =>
    simp only [assocSet, List.mem_singleton] at hx
    left; rw [hx]
  | cons hd tl ih =>
    obtain ⟨k', v'⟩ := hd
    by_cases h : k' = k
    · subst h
      simp only [assocSet, if_pos rfl] at hx
      rcases List.mem_cons.mp hx with hx | hx
      · left; rw [hx]
      · right; exact List.mem_cons_of_mem _ hx
    · simp only [assocSet, if_neg h] at hx
      rcases List.mem_cons.mp hx with hx | hx
      · right; rw [hx]; exact List.mem_cons_self _ _
      · rcases ih hx with h3 | h3
        · left; exact h3
        · right; exact List.mem_cons_of_mem _ h3

theorem mem_assocErase {α β : Type} [DecidableEq α]
    {m : List (α × β)} {k : α} {x : α × β}
    (hx : x ∈ assocErase m k) : x ∈ m := by
  induction m with
  | nil => simp [assocErase] at hx
  | cons hd tl ih =>
    obtain ⟨k', v'⟩ := hd
    by_cases h : k' = k
    · subst h
      simp only [assocErase, if_pos rfl] at hx
      exact List.mem_cons_of_mem _ (ih hx)
    · simp only [assocErase, if_neg h] at hx
      rcases List.mem_cons.mp hx with hx | hx
      · rw [hx]; exact List.mem_cons_self _ _
      · exact List.mem_cons_of_mem _ (ih hx)

theorem keysNodup_set {α β : Type} [DecidableEq α]
    {m : List (α × β)} (hm : keysNodup m) (k : α) (v : β) :
    keysNodup (assocSet m k v) := by
  induction m with
  | nil => simp [keysNodup, assocSet]
  | cons hd tl ih =>
    obtain ⟨k', v'⟩ := hd
    simp only [keysNodup, List.map_cons, List.nodup_cons] at hm
    by_cases h : k' = k
    · subst h
      simpa [keysNodup, assocSet] using hm
    · have htl := ih hm.2
      simp only [assocSet, if_neg h, keysNodup, List.map_cons, List.nodup_cons]
      refine ⟨?_, htl⟩
      intro hmem
      rcases List.mem_map.mp hmem with ⟨x, hx, hx1⟩
      rcases mem_assocSet hx with h3 | h3
      · exact h (hx1.symm.trans h3)
      · exact hm.1 (hx1 ▸ List.mem_map_of_mem Prod.fst h3)

theorem keysNodup_erase {α β : Type} [DecidableEq α]
    {m : List (α × β)} (hm : keysNodup m) (k : α) :
    keysNodup (assocErase m k) := by
  induction m with
  | nil => simp [keysNodup, assocErase]
  | cons hd tl ih =>
    obtain ⟨k', v'⟩ := hd
    simp only [keysNodup, List.map_cons, List.nodup_cons] at hm
    by_cases h : k' = k
    · subst h
      simpa [assocErase] using ih hm.2
    · have htl := ih hm.2
      simp only [assocErase, if_neg h, keysNodup, List.map_cons, List.nodup_cons]
      refine ⟨?_, htl⟩
      intro hmem
      rcases List.mem_map.mp hmem with ⟨x, hx, hx1⟩
      exact hm.1 (hx1 ▸ List.mem_map_of_mem Prod.fst (mem_assocErase hx))

theorem assocGet_mem {α β : Type} [DecidableEq α]
    {m : List (α × β)} {k : α} {v : β} (h : assocGet m k = some v) :
    (k, v) ∈ m := by
  induction m with
  | nil => simp [assocGet] at h
  | cons hd tl ih =>
    obtain ⟨k', v'⟩ := hd
    by_cases hk : k' = k
    · subst hk
      have h' : v' = v := by simpa [assocGet] using h
      rw [← h']; exact List.mem_cons_self _ _
    · simp only [assocGet, if_neg hk] at h
      exact List.mem_cons_of_mem _ (ih h)

theorem mem_assocGet {α β : Type} [DecidableEq α]
    {m : List (α × β)} (hm : keysNodup m) {k : α} {v : β} (h : (k, v) ∈ m) :
    assocGet m k = some v := by
  induction m with
  | nil => simp at h
  | cons hd tl ih =>
    obtain ⟨k', v'⟩ := hd
    simp only [keysNodup, List.map_cons, List.nodup_cons] at hm
    rcases List.mem_cons.mp h with h1 | h1
    · injection h1 with hk hv
      subst hk; subst hv
      simp [assocGet]
    · by_cases hk : k' = k
      · subst hk
        exact absurd (List.mem_map_of_mem Prod.fst h1) hm.1
      · simp only [assocGet, if_neg hk]
        exact ih hm.2 h1

/- ------------------------------ set lemmas ------------------------------- -/

theorem mem_setAdd {s : List Nat} {x c : Nat} :
    c ∈ setAdd s x ↔ c ∈ s ∨ c = x := by
  by_cases h : x ∈ s
  · simp only [setAdd, if_pos h]
    constructor
    · exact Or.inl
    · rintro (hc | rfl)
      · exact hc
      · exact h
  · simp [setAdd, if_neg h]

theorem mem_setDelete {s : List Nat} {x c : Nat} :
    c ∈ setDelete s x ↔ c ∈ s ∧ c ≠ x := by
  simp [setDelete, List.mem_filter]

theorem nodup_setAdd {s : List Nat} (hs : s.Nodup) (x : Nat) :
    (setAdd s x).Nodup := by
  by_cases h : x ∈ s
  · simpa [setAdd, if_pos h] using hs
  · simp only [setAdd, if_neg h]
    simpa [List.nodup_append] using ⟨hs, fun hx => h hx⟩

theorem nodup_setDelete {s : List Nat} (hs : s.Nodup) (x : Nat) :
    (setDelete s x).Nodup := List.Nodup.filter _ hs

/- ---------------------- room-helper read lemmas -------------------------- -/

theorem assocGet_roomsLeavePrev_self (rooms : List (String × RoomInfo))
    (p : String) (sid : Nat) :
    assocGet (roomsLeavePrev rooms p sid) p =
      (assocGet rooms p).map (fun i => { i with users := setDelete i.users sid }) := by
  unfold roomsLeavePrev
  cases h : assocGet rooms p with
  | none => simp [h]
  | some i => simp [assocGet_set_self]

theorem assocGet_roomsLeavePrev_ne (rooms : List (String × RoomInfo))
    (p : String) (sid : Nat) (r : String) (h : r ≠ p) :
    assocGet (roomsLeavePrev rooms p sid) r = assocGet rooms r := by
  unfold roomsLeavePrev
  cases hp : assocGet rooms p with
  | none => rfl
  | some i => exact assocGet_set_ne _ _ _ _ (Ne.symm h)

theorem assocGet_roomsEnsure_self (rooms : List (String × RoomInfo)) (room : String) :
    assocGet (roomsEnsure rooms room) room =
      some ((assocGet rooms room).getD { hotelName := "Unknown Hotel", users := [] }) := by
  unfold roomsEnsure
  cases h : assocGet rooms room with
  | none => simp [h, assocGet_set_self]
  | some i => simp [h]

theorem assocGet_roomsEnsure_ne (rooms : List (String × RoomInfo))
    (room r : String) (h : r ≠ room) :
    assocGet (roomsEnsure rooms room) r = assocGet rooms r := by
  unfold roomsEnsure
  cases hp : assocGet rooms room with
  | none => simp [hp, assocGet_set_ne _ _ _ _ (Ne.symm h)]
  | some i => simp [hp]

theorem assocGet_roomsAddMember_self (rooms : List (String × RoomInfo))
    (room : String) (sid : Nat) :
    assocGet (roomsAddMember rooms room sid) room =
      (assocGet rooms room).map (fun i => { i with users := setAdd i.users sid }) := by
  unfold roomsAddMember
  cases h : assocGet rooms room with
  | none => simp [h]
  | some i => simp [assocGet_set_self]

theorem assocGet_roomsAddMember_ne (rooms : List (String × RoomInfo))
    (room : String) (sid : Nat) (r : String) (h : r ≠ room) :
    assocGet (roomsAddMember rooms room sid) r = assocGet rooms r := by
  unfold roomsAddMember
  cases hp : assocGet rooms room with
  | none => rfl
  | some i => exact assocGet_set_ne _ _ _ _ (Ne.symm h)

theorem keysNodup_roomsLeavePrev {rooms : List (String × RoomInfo)}
    (h : keysNodup rooms) (p : String) (sid : Nat) :
    keysNodup (roomsLeavePrev rooms p sid) := by
  unfold roomsLeavePrev
  cases hp : assocGet rooms p with
  | none => exact h
  | some i => exact keysNodup_set h _ _

theorem keysNodup_roomsEnsure {rooms : List (String × RoomInfo)}
    (h : keysNodup rooms) (room : String) :
    keysNodup (roomsEnsure rooms room) := by
  unfold roomsEnsure
  split
  · exact h
  · exact keysNodup_set h _ _

theorem keysNodup_roomsAddMember {rooms : List (String × RoomInfo)}
    (h : keysNodup rooms) (room : String) (sid : Nat) :
    keysNodup (roomsAddMember rooms room sid) := by
  unfold roomsAddMember
  cases hp : assocGet rooms room with
  | none => exact h
  | some i => exact keysNodup_set h _ _

/- ---------------------------- The invariant ------------------------------ -/

/-- The membership/binding consistency invariant of the relay core:
well-formed maps, duplicate-free membership sets, membership sets in exact
correspondence with the binding map, and every stored binding naming a
non-empty room id that exists in the registry. -/
def CoreInv (st : ServerState) : Prop :=
  keysNodup st.activeRooms ∧
  keysNodup st.userRoles ∧
  (∀ r info, assocGet st.activeRooms r = some info → info.users.Nodup) ∧
  (∀ r info c, assocGet st.activeRooms r = some info →
      (c ∈ info.users ↔ ∃ b, assocGet st.userRoles c = some b ∧ b.room = r)) ∧
  (∀ c b, assocGet st.userRoles c = some b →
      b.room ≠ "" ∧ (assocGet st.activeRooms b.room).isSome) 

theorem inv_initState : CoreInv initState := by
  refine ⟨keysNodup_nil, keysNodup_nil, ?_, ?_, ?_⟩ <;>
    intros <;> simp_all [initState, assocGet]

/-- Under the invariant, a room's reported member count is the number of
connections currently bound to it. -/
theorem memberCount_eq_boundCount {st : ServerState} (h : CoreInv st)
    {r : String} {info : RoomInfo} (hr : assocGet st.activeRooms r = some info) :
    info.users.length = boundCount st r := by
  obtain ⟨hA, hU, hN, hM, _⟩ := h
  have husers := hN r info hr
  set l2 := (st.userRoles.filter (fun p => p.2.room = r)).map Prod.fst with hl2
  have hl2nodup : l2.Nodup := by
    have hsub : (st.userRoles.filter (fun p => p.2.room = r)).Sublist st.userRoles :=
      List.filter_sublist _
    exact List.Nodup.sublist (hsub.map Prod.fst) hU
  have hmem : ∀ c, c ∈ info.users ↔ c ∈ l2 := by
    intro c
    rw [hM r info c hr]
    constructor
    · rintro ⟨b, hb, hbr⟩
      refine List.mem_map.mpr ⟨(c, b), ?_, rfl⟩
      exact List.mem_filter.mpr ⟨assocGet_mem hb, by simpa using hbr⟩
    · intro hc
      rcases List.mem_map.mp hc with ⟨⟨c', b⟩, hcb, hfst⟩
      rcases List.mem_filter.mp hcb with ⟨hmem', hroom⟩
      obtain rfl : c' = c := hfst
      exact ⟨b, mem_assocGet hU hmem', by simpa using hroom⟩
  have htf : info.users.toFinset = l2.toFinset := by
    ext c; simp only [List.mem_toFinset]; exact hmem c
  calc info.users.length
      = info.users.toFinset.card := (List.toFinset_card_of_nodup husers).symm
    _ = l2.toFinset.card := by rw [htf]
    _ = l2.length := List.toFinset_card_of_nodup hl2nodup
    _ = boundCount st r := by simp [boundCount, hl2]

/- ------------------------ invariant preservation ------------------------- -/

theorem inv_joinFinish {st : ServerState} {rooms1 : List (String × RoomInfo)}
    {sid : Nat} {room role language : String}
    (hU : keysNodup st.userRoles)
    (hA1 : keysNodup rooms1)
    (hB : ∀ c b, assocGet st.userRoles c = some b →
        b.room ≠ "" ∧ (assocGet st.activeRooms b.room).isSome)
    (F1 : ∀ r, (assocGet rooms1 r).isSome = (assocGet st.activeRooms r).isSome)
    (F2 : ∀ r i, assocGet rooms1 r = some i → i.users.Nodup)
    (F3 : ∀ r i c, assocGet rooms1 r = some i → c ≠ sid →
        (c ∈ i.users ↔ ∃ b, assocGet st.userRoles c = some b ∧ b.room = r))
    (F4 : ∀ r i, assocGet rooms1 r = some i → sid ∉ i.users)
    (hroom : room ≠ "") :
    CoreInv { activeRooms := roomsAddMember (roomsEnsure rooms1 room) room sid,
              userRoles := assocSet st.userRoles sid
                { room := room, role := role, language := language } } := by
  have hG3ne : ∀ r, r ≠ room →
      assocGet (roomsAddMember (roomsEnsure rooms1 room) room sid) r =
        assocGet rooms1 r := by
    intro r hr
    rw [assocGet_roomsAddMember_ne _ _ _ _ hr, assocGet_roomsEnsure_ne _ _ _ hr]
  have hG3self : assocGet (roomsAddMember (roomsEnsure rooms1 room) room sid) room =
      some { (assocGet rooms1 room).getD { hotelName := "Unknown Hotel", users := [] } with
             users := setAdd ((assocGet rooms1 room).getD
               { hotelName := "Unknown Hotel", users := [] }).users sid } := by
    rw [assocGet_roomsAddMember_self, assocGet_roomsEnsure_self]
    rfl
  have hURself : assocGet (assocSet st.userRoles sid
      (⟨room, role, language⟩ : UserBinding)) sid = some ⟨room, role, language⟩ :=
    assocGet_set_self _ _ _
  have hURne : ∀ c, c ≠ sid → assocGet (assocSet st.userRoles sid
      (⟨room, role, language⟩ : UserBinding)) c = assocGet st.userRoles c := by
    intro c hc
    exact assocGet_set_ne _ _ _ _ (Ne.symm hc)
  have hdn : ((assocGet rooms1 room).getD
      { hotelName := "Unknown Hotel", users := [] }).users.Nodup := by
    cases h1 : assocGet rooms1 room with
    | none => simp
    | some i => simpa using F2 room i h1
  refine ⟨keysNodup_roomsAddMember (keysNodup_roomsEnsure hA1 room) room sid,
          keysNodup_set hU _ _, ?_, ?_, ?_⟩
  · intro r info hr
    by_cases hrr : r = room
    · obtain rfl := hrr.symm
      rw [hG3self] at hr
      injection hr with hinfo
      subst hinfo
      exact nodup_setAdd hdn sid
    · rw [hG3ne r hrr] at hr
      exact F2 r info hr
  · intro r info c hr
    by_cases hc : c = sid
    · subst hc
      simp only [hURself]
      by_cases hrr : r = room
      · obtain rfl := hrr.symm
        rw [hG3self] at hr
        injection hr with hinfo
        subst hinfo
        constructor
        · intro _
          exact ⟨_, rfl, rfl⟩
        · intro _
          exact mem_setAdd.mpr (Or.inr rfl)
      · rw [hG3ne r hrr] at hr
        constructor
        · intro hmem
          exact absurd hmem (F4 r info hr)
        · rintro ⟨b, hb, hbr⟩
          injection hb with hb2
          subst hb2
          exact absurd hbr.symm hrr
    · rw [hURne c hc]
      by_cases hrr : r = room
      · obtain rfl := hrr.symm
        rw [hG3self] at hr
        injection hr with hinfo
        subst hinfo
        have hstep : (c ∈ setAdd ((assocGet rooms1 room).getD
            { hotelName := "Unknown Hotel", users := [] }).users sid) ↔
            c ∈ ((assocGet rooms1 room).getD
              { hotelName := "Unknown Hotel", users := [] }).users := by
          rw [mem_setAdd]
          exact or_iff_left hc
        rw [hstep]
        cases h1 : assocGet rooms1 room with
        | some i => simpa using F3 room i c h1 hc
        | none =>
          simp only [Option.getD_none]
          constructor
          · intro hmem
            simp at hmem
          · rintro ⟨b, hb, hbr⟩
            have hsome := (hB c b hb).2
            have hF := F1 room
            rw [h1] at hF
            rw [hbr] at hsome
            rw [← hF] at hsome
            simp at hsome
      · rw [hG3ne r hrr] at hr
        exact F3 r info c hr hc
  · intro c b hb
    by_cases hc : c = sid
    · subst hc
      rw [hURself] at hb
      injection hb with hb2
      subst hb2
      refine ⟨hroom, ?_⟩
      rw [hG3self]
      rfl
    · rw [hURne c hc] at hb
      obtain ⟨hbr, hbs⟩ := hB c b hb
      refine ⟨hbr, ?_⟩
      by_cases hrr : b.room = room
      · rw [hrr, hG3self]
        rfl
      · rw [hG3ne _ hrr, F1 b.room]
        exact hbs

theorem inv_joinStateUpdate {st : ServerState} (h : CoreInv st)
    (sid : Nat) {room : String} (hroom : room ≠ "") (role language : String) :
    CoreInv (joinStateUpdate st sid room role language) := by
  obtain ⟨hA, hU, hN, hM, hB⟩ := h
  unfold joinStateUpdate
  cases hprev : assocGet st.userRoles sid with
  | none =>
    simp only
    refine inv_joinFinish hU hA hB (fun r => rfl) hN ?_ ?_ hroom
    · intro r i c hi _
      exact hM r i c hi
    · intro r i hi hmem
      rcases (hM r i sid hi).mp hmem with ⟨b, hb, _⟩
      rw [hprev] at hb
      exact Option.noConfusion hb
  | some prev =>
    have hpr : prev.room ≠ "" := (hB sid prev hprev).1
    simp only [if_neg hpr]
    refine inv_joinFinish hU (keysNodup_roomsLeavePrev hA prev.room sid) hB ?_ ?_ ?_ ?_ hroom
    · intro r
      by_cases hr : r = prev.room
      · obtain rfl := hr.symm
        rw [assocGet_roomsLeavePrev_self]
        cases assocGet st.activeRooms prev.room <;> simp
      · rw [assocGet_roomsLeavePrev_ne _ _ _ _ hr]
    · intro r i hi
      by_cases hr : r = prev.room
      · obtain rfl := hr.symm
        rw [assocGet_roomsLeavePrev_self] at hi
        cases h0 : assocGet st.activeRooms prev.room with
        | none => rw [h0] at hi; exact Option.noConfusion hi
        | some i0 =>
          rw [h0] at hi
          injection hi with hi2
          subst hi2
          exact nodup_setDelete (hN _ i0 h0) sid
      · rw [assocGet_roomsLeavePrev_ne _ _ _ _ hr] at hi
        exact hN r i hi
    · intro r i c hi hc
      by_cases hr : r = prev.room
      · obtain rfl := hr.symm
        rw [assocGet_roomsLeavePrev_self] at hi
        cases h0 : assocGet st.activeRooms prev.room with
        | none => rw [h0] at hi; exact Option.noConfusion hi
        | some i0 =>
          rw [h0] at hi
          injection hi with hi2
          subst hi2
          rw [show (c ∈ setDelete i0.users sid) ↔ (c ∈ i0.users ∧ c ≠ sid) from mem_setDelete]
          rw [and_iff_left hc]
          exact hM _ i0 c h0
      · rw [assocGet_roomsLeavePrev_ne _ _ _ _ hr] at hi
        exact hM r i c hi
    · intro r i hi hmem
      by_cases hr : r = prev.room
      · obtain rfl := hr.symm
        rw [assocGet_roomsLeavePrev_self] at hi
        cases h0 : assocGet st.activeRooms prev.room with
        | none => rw [h0] at hi; exact Option.noConfusion hi
        | some i0 =>
          rw [h0] at hi
          injection hi with hi2
          subst hi2
          exact (mem_setDelete.mp hmem).2 rfl
      · rw [assocGet_roomsLeavePrev_ne _ _ _ _ hr] at hi
        rcases (hM r i sid hi).mp hmem with ⟨b, hb, hbr⟩
        rw [hprev] at hb
        injection hb with hb2
        subst hb2
        exact hr (hbr ▸ rfl)

theorem inv_disconnectState {st : ServerState} (h : CoreInv st) (sid : Nat) :
    CoreInv (disconnectHandler st sid).1 := by
  obtain ⟨hA, hU, hN, hM, hB⟩ := h
  cases hbind : assocGet st.userRoles sid with
  | none =>
    have hstate : (disconnectHandler st sid).1 = st := by
      unfold disconnectHandler
      rw [hbind]
    rw [hstate]
    exact ⟨hA, hU, hN, hM, hB⟩
  | some userInfo =>
    cases hri : assocGet st.activeRooms userInfo.room with
    | none =>
      exfalso
      have hs := (hB sid userInfo hbind).2
      rw [hri] at hs
      simp at hs
    | some info =>
      have hstate : (disconnectHandler st sid).1 =
          { activeRooms := assocSet st.activeRooms userInfo.room
              { info with users := setDelete info.users sid },
            userRoles := assocErase st.userRoles sid } := by
        unfold disconnectHandler
        rw [hbind]
        simp only
        rw [hri]
      rw [hstate]
      have hGself : assocGet (assocSet st.activeRooms userInfo.room
          { info with users := setDelete info.users sid }) userInfo.room =
          some { info with users := setDelete info.users sid } :=
        assocGet_set_self _ _ _
      have hGne : ∀ r, r ≠ userInfo.room →
          assocGet (assocSet st.activeRooms userInfo.room
            { info with users := setDelete info.users sid }) r =
          assocGet st.activeRooms r := by
        intro r hr
        exact assocGet_set_ne _ _ _ _ (Ne.symm hr)
      refine ⟨keysNodup_set hA _ _, keysNodup_erase hU sid, ?_, ?_, ?_⟩
      · intro r i hi
        by_cases hr : r = userInfo.room
        · obtain rfl := hr.symm
          rw [hGself] at hi
          injection hi with hi2
          subst hi2
          exact nodup_setDelete (hN _ info hri) sid
        · rw [hGne r hr] at hi
          exact hN r i hi
      · intro r i c hi
        by_cases hc : c = sid
        · obtain rfl := hc.symm
          rw [assocGet_erase_self]
          constructor
          · intro hmem
            exfalso
            by_cases hr : r = userInfo.room
            · obtain rfl := hr.symm
              rw [hGself] at hi
              injection hi with hi2
              subst hi2
              exact (mem_setDelete.mp hmem).2 rfl
            · rw [hGne r hr] at hi
              rcases (hM r i sid hi).mp hmem with ⟨b, hb, hbr⟩
              rw [hbind] at hb
              injection hb with hb2
              subst hb2
              exact hr (hbr ▸ rfl)
          · rintro ⟨b, hb, _⟩
            exact Option.noConfusion hb
        · rw [assocGet_erase_ne _ _ _ (Ne.symm hc)]
          by_cases hr : r = userInfo.room
          · obtain rfl := hr.symm
            rw [hGself] at hi
            injection hi with hi2
            subst hi2
            rw [show (c ∈ setDelete info.users sid) ↔ (c ∈ info.users ∧ c ≠ sid) from
              mem_setDelete]
            rw [and_iff_left hc]
            exact hM _ info c hri
          · rw [hGne r hr] at hi
            exact hM r i c hi
      · intro c b hb
        by_cases hc : c = sid
        · obtain rfl := hc.symm
          rw [assocGet_erase_self] at hb
          exact Option.noConfusion hb
        · rw [assocGet_erase_ne _ _ _ (Ne.symm hc)] at hb
          obtain ⟨h1, h2⟩ := hB c b hb
          refine ⟨h1, ?_⟩
          by_cases hr : b.room = userInfo.room
          · rw [hr, hGself]
            rfl
          · rw [hGne _ hr]
            exact h2

theorem inv_cleanupFire {st : ServerState} (h : CoreInv st) (room : String) :
    CoreInv (cleanupFire st room) := by
  obtain ⟨hA, hU, hN, hM, hB⟩ := h
  cases hri : assocGet st.activeRooms room with
  | none =>
    have hstate : cleanupFire st room = st := by
      unfold cleanupFire
      rw [hri]
    rw [hstate]
    exact ⟨hA, hU, hN, hM, hB⟩
  | some again =>
    by_cases hlen : again.users.length = 0
    · have hstate : cleanupFire st room =
          { activeRooms := assocErase st.activeRooms room,
            userRoles := st.userRoles } := by
        unfold cleanupFire
        rw [hri]
        simp only
        rw [if_pos hlen]
      rw [hstate]
      have hempty : again.users = [] := List.length_eq_zero.mp hlen
      refine ⟨keysNodup_erase hA room, hU, ?_, ?_, ?_⟩
      · intro r i hi
        by_cases hr : r = room
        · obtain rfl := hr.symm
          rw [assocGet_erase_self] at hi
          exact Option.noConfusion hi
        · rw [assocGet_erase_ne _ _ _ (Ne.symm hr)] at hi
          exact hN r i hi
      · intro r i c hi
        by_cases hr : r = room
        · obtain rfl := hr.symm
          rw [assocGet_erase_self] at hi
          exact Option.noConfusion hi
        · rw [assocGet_erase_ne _ _ _ (Ne.symm hr)] at hi
          exact hM r i c hi
      · intro c b hb
        obtain ⟨h1, h2⟩ := hB c b hb
        refine ⟨h1, ?_⟩
        by_cases hr : b.room = room
        · exfalso
          have hmem := (hM room again c hri).mpr ⟨b, hb, hr⟩
          rw [hempty] at hmem
          simp at hmem
        · rw [assocGet_erase_ne _ _ _ (Ne.symm hr)]
          exact h2
    · have hstate : cleanupFire st room = st := by
        unfold cleanupFire
        rw [hri]
        simp only
        rw [if_neg hlen]
      rw [hstate]
      exact ⟨hA, hU, hN, hM, hB⟩

theorem strTruthy_getD_ne_empty {o : Option String} (h : strTruthy o = true) :
    o.getD "" ≠ "" := by
  cases o with
  | none => simp [strTruthy] at h
  | some s => simpa [strTruthy] using h

theorem inv_stepState {st : ServerState} (h : CoreInv st) (e : ServerEvent) :
    CoreInv (stepState st e) := by
  cases e with
  | joinRoom sid data =>
    show CoreInv (joinRoomHandler st sid data).1
    unfold joinRoomHandler
    by_cases hv : strTruthy data.room ∧ strTruthy data.role
    · rw [if_neg (not_not_intro hv)]
      exact inv_joinStateUpdate h sid (strTruthy_getD_ne_empty hv.1) _ _
    · rw [if_pos hv]
      exact h
  | disconnect sid => exact inv_disconnectState h sid
  | cleanup room => exact inv_cleanupFire h room

theorem inv_foldl : ∀ (events : List ServerEvent) (st : ServerState),
    CoreInv st → CoreInv (events.foldl stepState st)
  | [], _, h => h
  | e :: tl, st, h => inv_foldl tl _ (inv_stepState h e)

theorem inv_runEvents (events : List ServerEvent) : CoreInv (runEvents events) :=
  inv_foldl events initState inv_initState

/- --------------------- output observation functions ---------------------- -/

/-- The `translation` payloads among a handler's emissions. -/
def translationEvents (out : List Emit) : List MessageData :=
  out.filterMap (fun e =>
    match e.2 with
    | Event.translation m => some m
    | _ => none)

/-- The authorization check of the message handlers fails:
`!userInfo || userInfo.room !== room`. -/
def notAuthorized (st : ServerState) (sid : Nat) (room : String) : Prop :=
  ∀ b, assocGet st.userRoles sid = some b → b.room ≠ room

/- ------------------------------ Claim C3 --------------------------------- -/

/-- C3: for every inbound `text_message` or `audio_message` naming a room
that does not match the sending connection's current binding (or sent by
an unbound connection), the handler emits exactly one `error` event to the
sender and nothing else: no `processing_status` and no `translation` event
reaches anyone. -/
theorem C3_message_auth :
    (∀ st sid (data : TextMsg) trO, notAuthorized st sid data.room →
      textMessageHandler st sid data trO =
        ([(Recipient.toSender, Event.errorEvt "Not authorized for this room" none)],
         false)) ∧
    (∀ st sid (data : AudioMsg) sttO trO, notAuthorized st sid data.room →
      audioMessageHandler st sid data sttO trO =
        ([(Recipient.toSender, Event.errorEvt "Not authorized for this room" none)],
         false)) := by
  constructor
  · intro st sid data trO hna
    rcases hb : assocGet st.userRoles sid with _ | b
    · unfold textMessageHandler
      rw [hb]
    · unfold textMessageHandler
      rw [hb]
      simp only
      rw [if_pos (hna b hb)]
  · intro st sid data sttO trO hna
    rcases hb : assocGet st.userRoles sid with _ | b
    · unfold audioMessageHandler
      rw [hb]
    · unfold audioMessageHandler
      rw [hb]
      simp only
      rw [if_pos (hna b hb)]

/-- C3 witness: a connection with no binding sending into room `r9` gets
exactly the single error emission. -/
theorem C3_message_auth_witness :
    textMessageHandler initState 7
        { room := "r9", role := "guest", text := some "hi",
          language := none, targetLanguage := none }
        (fun _ _ _ => Except.error "unused") =
      ([(Recipient.toSender, Event.errorEvt "Not authorized for this room" none)],
       false) :=
  C3_message_auth.1 initState 7
    { room := "r9", role := "guest", text := some "hi",
      language := none, targetLanguage := none }
    (fun _ _ _ => Except.error "unused")
    (by intro b hb; simp [initState, assocGet] at hb)

/- ------------------------------ Claim C4 --------------------------------- -/

/-- C4: the deferred cleanup deletes a room only when its membership is
still empty at fire time: a room that regained a member is left completely
untouched (state unchanged, membership intact), and an empty room is
indeed deleted. -/
theorem C4_cleanup_checked :
    (∀ st room info, assocGet st.activeRooms room = some info →
        info.users ≠ [] → cleanupFire st room = st) ∧
    (∀ st room info, assocGet st.activeRooms room = some info →
        info.users = [] →
        assocGet (cleanupFire st room).activeRooms room = none) := by
  constructor
  · intro st room info hri hne
    unfold cleanupFire
    rw [hri]
    simp only
    rw [if_neg (fun h0 => hne (List.length_eq_zero.mp h0))]
  · intro st room info hri hempty
    unfold cleanupFire
    rw [hri]
    simp only
    rw [if_pos (by simp [hempty])]
    exact assocGet_erase_self _ _

/-- C4 witness: firing the cleanup on a room that regained member `3`
leaves the state (and so the membership) unchanged. -/
theorem C4_cleanup_checked_witness :
    cleanupFire
      { activeRooms := [("r2", { hotelName := "H", users := [3] })],
        userRoles := [(3, { room := "r2", role := "guest", language := "hi-IN" })] }
      "r2" =
    { activeRooms := [("r2", { hotelName := "H", users := [3] })],
      userRoles := [(3, { room := "r2", role := "guest", language := "hi-IN" })] } :=
  C4_cleanup_checked.1 _ "r2" { hotelName := "H", users := [3] } (by decide) (by decide)

/- ------------------------------ Claim C5 --------------------------------- -/

/-- C5: for every sequence of `join_room`, `disconnect` and cleanup
events, each room's reported member count equals the number of connections
currently bound to it, and no connection is a member of two distinct rooms
at the same instant (so each connection is bound to at most one room). -/
theorem C5_membership_invariant (events : List ServerEvent) :
    (∀ r info, assocGet (runEvents events).activeRooms r = some info →
        info.users.length = boundCount (runEvents events) r) ∧
    (∀ c r r' i i', assocGet (runEvents events).activeRooms r = some i →
        assocGet (runEvents events).activeRooms r' = some i' →
        c ∈ i.users → c ∈ i'.users → r = r') := by
  have hinv := inv_runEvents events
  constructor
  · intro r info hr
    exact memberCount_eq_boundCount hinv hr
  · intro c r r' i i' hr hr' hm hm'
    obtain ⟨_, _, _, hM, _⟩ := hinv
    rcases (hM r i c hr).mp hm with ⟨b, hb, hbr⟩
    rcases (hM r' i' c hr').mp hm' with ⟨b', hb', hbr'⟩
    rw [hb] at hb'
    injection hb' with hbb
    rw [← hbr, ← hbr', hbb]

/-- C5 witness: after connection 1 joins `r1`, connection 2 joins `r1`,
and connection 1 rejoins into `r3`, room `r1`'s member count equals the
number of connections bound to `r1`. -/
theorem C5_membership_invariant_witness :
    ({ hotelName := "Unknown Hotel", users := [2] } : RoomInfo).users.length =
      boundCount
        (runEvents
          [ServerEvent.joinRoom 1 ⟨some "r1", some "host", some "en-IN"⟩,
           ServerEvent.joinRoom 2 ⟨some "r1", some "guest", some "hi-IN"⟩,
           ServerEvent.joinRoom 1 ⟨some "r3", some "host", some "en-IN"⟩]) "r1" :=
  (C5_membership_invariant
    [ServerEvent.joinRoom 1 ⟨some "r1", some "host", some "en-IN"⟩,
     ServerEvent.joinRoom 2 ⟨some "r1", some "guest", some "hi-IN"⟩,
     ServerEvent.joinRoom 1 ⟨some "r3", some "host", some "en-IN"⟩]).1
    "r1" { hotelName := "Unknown Hotel", users := [2] } (by decide)

/- ------------------------------ Claim C6 --------------------------------- -/

/-- C6: whenever the recognition or translation collaborator call fails,
the pipeline aborts: the room receives `processing_status = error`, the
sender receives an `error` event with the failure detail, and no
`translation` event is emitted — the core emits exactly the abort
emissions and never substitutes fallback text. -/
theorem C6_failure_aborts :
    (∀ st sid (data : TextMsg) e b, assocGet st.userRoles sid = some b →
        b.room = data.room →
        textMessageHandler st sid data (fun _ _ _ => Except.error e) =
          ([(Recipient.toRoom data.room,
              Event.processingStatus "translating" (some data.role)),
            (Recipient.toSender, Event.errorEvt ("Translation failed: " ++ e) none),
            (Recipient.toRoom data.room, Event.processingStatus "error" none)],
           true)) ∧
    (∀ st sid (data : AudioMsg) e trO b, assocGet st.userRoles sid = some b →
        b.room = data.room →
        audioMessageHandler st sid data (Except.error e) trO =
          ([(Recipient.toRoom data.room,
              Event.processingStatus "transcribing" (some data.role)),
            (Recipient.toSender,
              Event.errorEvt "Failed to process audio message" (some e)),
            (Recipient.toRoom data.room, Event.processingStatus "error" none)],
           false)) ∧
    (∀ st sid (data : AudioMsg) (stt : SttResult) e,
        ∀ b, assocGet st.userRoles sid = some b → b.room = data.room →
        audioMessageHandler st sid data (Except.ok stt)
            (fun _ _ _ => Except.error e) =
          ([(Recipient.toRoom data.room,
              Event.processingStatus "transcribing" (some data.role)),
            (Recipient.toRoom data.room,
              Event.processingStatus "translating" (some data.role)),
            (Recipient.toSender,
              Event.errorEvt "Failed to process audio message" (some e)),
            (Recipient.toRoom data.room, Event.processingStatus "error" none)],
           true)) := by
  refine ⟨?_, ?_, ?_⟩
  · intro st sid data e b hb hroom
    unfold textMessageHandler
    rw [hb]
    simp only
    rw [if_neg (not_not_intro hroom)]
  · intro st sid data e trO b hb hroom
    unfold audioMessageHandler
    rw [hb]
    simp only
    rw [if_neg (not_not_intro hroom)]
  · intro st sid data stt e b hb hroom
    unfold audioMessageHandler
    rw [hb]
    simp only
    rw [if_neg (not_not_intro hroom)]

/-- C6 witness: a failing recognition collaborator on an authorized audio
message yields exactly the abort emissions, with no translation event. -/
theorem C6_failure_aborts_witness :
    audioMessageHandler
      { activeRooms := [("r1", { hotelName := "H", users := [1] })],
        userRoles := [(1, { room := "r1", role := "guest", language := "hi-IN" })] }
      1 { room := "r1", role := "guest", language := none, targetLanguage := none }
      (Except.error "boom") (fun _ _ _ => Except.error "unused") =
    ([(Recipient.toRoom "r1", Event.processingStatus "transcribing" (some "guest")),
      (Recipient.toSender, Event.errorEvt "Failed to process audio message" (some "boom")),
      (Recipient.toRoom "r1", Event.processingStatus "error" none)], false) :=
  C6_failure_aborts.2.1
    { activeRooms := [("r1", { hotelName := "H", users := [1] })],
      userRoles := [(1, { room := "r1", role := "guest", language := "hi-IN" })] }
    1 { room := "r1", role := "guest", language := none, targetLanguage := none }
    "boom" (fun _ _ _ => Except.error "unused")
    { room := "r1", role := "guest", language := "hi-IN" } (by decide) (by decide)

/- ------------------------------ Claim C10 -------------------------------- -/

/-- C10: for every authorized text message, the emitted `translation`
event carries confidence exactly `1.0`, no matter which confidence the
translation collaborator reports. -/
theorem C10_text_confidence_one :
    ∀ st sid (data : TextMsg) (trRes : TranslationResult) b,
      assocGet st.userRoles sid = some b → b.room = data.room →
      (translationEvents
          (textMessageHandler st sid data (fun _ _ _ => Except.ok trRes)).1).map
        (fun m => m.confidence) = [1] := by
  intro st sid data trRes b hb hroom
  unfold textMessageHandler
  rw [hb]
  simp only
  rw [if_neg (not_not_intro hroom)]
  simp [translationEvents]

/-- C10 witness: a collaborator confidence of `1/4` is not propagated —
the text-message translation event reports confidence `1`. -/
theorem C10_text_confidence_one_witness :
    (translationEvents
        (textMessageHandler
          { activeRooms := [("r1", { hotelName := "H", users := [1] })],
            userRoles := [(1, { room := "r1", role := "guest", language := "hi-IN" })] }
          1 { room := "r1", role := "guest", text := some "hello",
              language := none, targetLanguage := none }
          (fun _ _ _ => Except.ok
            { text := "bonjour", source_language := "hi-IN",
              target_language := "en-IN", confidence := 1/4 })).1).map
      (fun m => m.confidence) = [1] :=
  C10_text_confidence_one
    { activeRooms := [("r1", { hotelName := "H", users := [1] })],
      userRoles := [(1, { room := "r1", role := "guest", language := "hi-IN" })] }
    1 { room := "r1", role := "guest", text := some "hello",
        language := none, targetLanguage := none }
    { text := "bonjour", source_language := "hi-IN",
      target_language := "en-IN", confidence := 1/4 }
    { room := "r1", role := "guest", language := "hi-IN" } (by decide) (by decide)

/- ------------------------------ Claim C1 --------------------------------- -/

/-- C1 counterexample: an authorized guest message whose resolved source
and target are both `en-IN` still invokes the translation collaborator
(`.2 = true`), and the emitted translated text is whatever the
collaborator returned (`"HELLO"`), not the original text — the pipeline
has no same-language branch of its own. -/
theorem C1_counterexample :
    (textMessageHandler
        { activeRooms := [("r1", { hotelName := "H", users := [1] })],
          userRoles := [(1, { room := "r1", role := "guest", language := "hi-IN" })] }
        1 { room := "r1", role := "guest", text := some "Hello",
            language := some "en-IN", targetLanguage := none }
        (fun _ _ _ => Except.ok
          { text := "HELLO", source_language := "en-IN",
            target_language := "en-IN", confidence := 19/20 })).2 = true ∧
    (translationEvents
        (textMessageHandler
          { activeRooms := [("r1", { hotelName := "H", users := [1] })],
            userRoles := [(1, { room := "r1", role := "guest", language := "hi-IN" })] }
          1 { room := "r1", role := "guest", text := some "Hello",
              language := some "en-IN", targetLanguage := none }
          (fun _ _ _ => Except.ok
            { text := "HELLO", source_language := "en-IN",
              target_language := "en-IN", confidence := 19/20 })).1).map
      (fun m => (m.original.language, m.translated.language,
                 m.original.text, m.translated.text)) =
      [("en-IN", "en-IN", "Hello", "HELLO")] := by
  decide

/-- C1 amended: the pipeline itself invokes the translation collaborator
on every authorized text message, same-language or not; the same-language
skip lives inside the collaborator wrapper `SarvamClient.translate`, which
returns the original text with maximum confidence and issues no HTTP
request when the validated source equals the validated target (and is not
`auto`); the inline `SarvamAIClient.translate` of the first server variant
always issues the HTTP request. -/
theorem C1_skip_is_in_collaborator :
    (∀ st sid (data : TextMsg) trO b, assocGet st.userRoles sid = some b →
        b.room = data.room →
        (textMessageHandler st sid data trO).2 = true) ∧
    (∀ (text src tgt : String) (oracle : Except String HttpTranslateResp),
        jsTrim text ≠ "" → src ≠ "auto" →
        validateLanguageCode (some src) "translate-source" =
          validateLanguageCode (some tgt) "translate-target" →
        validateLanguageCode (some src) "translate-source" ≠ "auto" →
        sarvamClientTranslate text src tgt oracle =
          ({ text := text,
             source_language := validateLanguageCode (some src) "translate-source",
             target_language := validateLanguageCode (some tgt) "translate-target",
             confidence := 1 }, false)) ∧
    (∀ (text src tgt : String) (resp : Except String HttpTranslateResp),
        (sarvamAIClientTranslate text src tgt resp).2 = true) := by
  refine ⟨?_, ?_, ?_⟩
  · intro st sid data trO b hb hroom
    unfold textMessageHandler
    rw [hb]
    simp only
    rw [if_neg (not_not_intro hroom)]
    split <;> rfl
  · intro text src tgt oracle htrim hsrc heq hne
    unfold sarvamClientTranslate
    rw [if_neg htrim]
    simp only
    rw [if_neg hsrc]
    rw [if_pos ⟨heq, hne⟩]
  · intro text src tgt resp
    cases resp <;> rfl

/-- C1 witness: at the concrete same-language input `en-IN → en-IN`, the
pipeline still calls the collaborator, while `SarvamClient.translate`
returns the original text with confidence `1` and no HTTP request even
though the HTTP layer is down. -/
theorem C1_skip_is_in_collaborator_witness :
    (textMessageHandler
        { activeRooms := [("r1", { hotelName := "H", users := [1] })],
          userRoles := [(1, { room := "r1", role := "guest", language := "en-IN" })] }
        1 { room := "r1", role := "guest", text := some "Hello",
            language := some "en-IN", targetLanguage := none }
        (fun _ _ _ => Except.error "down")).2 = true ∧
    sarvamClientTranslate "Hello" "en-IN" "en-IN" (Except.error "down") =
      ({ text := "Hello", source_language := "en-IN",
         target_language := "en-IN", confidence := 1 }, false) ∧
    (sarvamAIClientTranslate "Hello" "en-IN" "en-IN" (Except.error "down")).2 =
      true := by
  refine ⟨C1_skip_is_in_collaborator.1 _ 1 _ _
      { room := "r1", role := "guest", language := "en-IN" } (by decide) (by decide),
    ?_, C1_skip_is_in_collaborator.2.2 "Hello" "en-IN" "en-IN" (Except.error "down")⟩
  rw [C1_skip_is_in_collaborator.2.1 "Hello" "en-IN" "en-IN" (Except.error "down")
    (by decide) (by decide) (by decide) (by decide)]
  decide

/- ------------------------------ Claim C2 --------------------------------- -/

/-- C2 counterexample: host 1 (own language `en-IN`) shares room `r1` with
guest 2 (language `hi-IN`); with no explicit target the code resolves the
host's target to the host's own stored language `en-IN`, not to the first
guest's `hi-IN` required by the claim. -/
theorem C2_counterexample :
    resolveTargetLanguage
      { activeRooms := [("r1", { hotelName := "H", users := [1, 2] })],
        userRoles := [(1, { room := "r1", role := "host", language := "en-IN" }),
                      (2, { room := "r1", role := "guest", language := "hi-IN" })] }
      "host" 1 none = "en-IN" ∧
    specFirstGuestLanguage
      { activeRooms := [("r1", { hotelName := "H", users := [1, 2] })],
        userRoles := [(1, { room := "r1", role := "host", language := "en-IN" }),
                      (2, { room := "r1", role := "guest", language := "hi-IN" })] }
      "r1" 1 = some "hi-IN" ∧
    ("en-IN" : String) ≠ "hi-IN" := by
  decide

/-- C2 amended: for a non-guest sender with no truthy explicit target, the
resolved target language is the sender's own stored binding language (when
non-empty), falling back to `hi-IN` when the sender has no binding — the
room's guest members are never consulted. -/
theorem C2_host_target_own_language :
    (∀ st (role : String) sid tgt b, strTruthy tgt = false → role ≠ "guest" →
        assocGet st.userRoles sid = some b → b.language ≠ "" →
        resolveTargetLanguage st role sid tgt = b.language) ∧
    (∀ st (role : String) sid tgt, strTruthy tgt = false → role ≠ "guest" →
        assocGet st.userRoles sid = none →
        resolveTargetLanguage st role sid tgt = "hi-IN") := by
  constructor
  · intro st role sid tgt b htgt hrole hb hlang
    unfold resolveTargetLanguage
    rw [htgt]
    simp only [Bool.false_eq_true, if_false]
    rw [if_neg hrole, hb]
    simp only
    unfold orElseStr
    rw [if_neg hlang]
  · intro st role sid tgt htgt hrole hb
    unfold resolveTargetLanguage
    rw [htgt]
    simp only [Bool.false_eq_true, if_false]
    rw [if_neg hrole, hb]

/-- C2 witness: in the two-member room of the counterexample, the host's
resolved target is the host's own `en-IN`. -/
theorem C2_host_target_own_language_witness :
    resolveTargetLanguage
      { activeRooms := [("r1", { hotelName := "H", users := [1, 2] })],
        userRoles := [(1, { room := "r1", role := "host", language := "en-IN" }),
                      (2, { room := "r1", role := "guest", language := "hi-IN" })] }
      "host" 1 none = "en-IN" :=
  C2_host_target_own_language.1 _ "host" 1 none
    { room := "r1", role := "host", language := "en-IN" }
    (by decide) (by decide) (by decide) (by decide)

/- ------------------------------ Claim C7 --------------------------------- -/

/-- C7 counterexample: guest 1 is bound with language `ta-IN` and sends a
text message with no per-message language; the claim predicts resolved
source `ta-IN` (the speaker's bound language), but the destructuring
default makes the code resolve `hi-IN`. -/
theorem C7_counterexample :
    (translationEvents
        (textMessageHandler
          { activeRooms := [("r1", { hotelName := "H", users := [1] })],
            userRoles := [(1, { room := "r1", role := "guest", language := "ta-IN" })] }
          1 { room := "r1", role := "guest", text := some "hello",
              language := none, targetLanguage := none }
          (fun _ _ _ => Except.ok
            { text := "HELLO", source_language := "x",
              target_language := "y", confidence := 19/20 })).1).map
      (fun m => m.original.language) = ["hi-IN"] ∧
    ("hi-IN" : String) ≠ "ta-IN" := by
  decide

/-- C7 amended: the resolved source language of a text message is the
per-message `language` field, which defaults to `hi-IN` when the field is
omitted; the bound-language (guest) / `en-IN` (host) fallback applies only
when the field is supplied but empty; and an audio message's resolved
source is likewise the per-message language field (default `hi-IN`), not
the speaker's bound language. -/
theorem C7_source_from_payload :
    (∀ st sid (data : TextMsg) (tr : TranslationResult) b,
        assocGet st.userRoles sid = some b → b.room = data.room →
        data.language = none →
        (translationEvents (textMessageHandler st sid data
            (fun _ _ _ => Except.ok tr)).1).map (fun m => m.original.language) =
          ["hi-IN"]) ∧
    (∀ st sid (data : TextMsg) (tr : TranslationResult) b (l : String),
        assocGet st.userRoles sid = some b → b.room = data.room →
        data.language = some l → l ≠ "" →
        (translationEvents (textMessageHandler st sid data
            (fun _ _ _ => Except.ok tr)).1).map (fun m => m.original.language) =
          [l]) ∧
    (∀ st sid (data : TextMsg) (tr : TranslationResult) b,
        assocGet st.userRoles sid = some b → b.room = data.room →
        data.language = some "" →
        (translationEvents (textMessageHandler st sid data
            (fun _ _ _ => Except.ok tr)).1).map (fun m => m.original.language) =
          [if data.role = "guest" then b.language else "en-IN"]) ∧
    (∀ st sid (data : AudioMsg) (stt : SttResult) (tr : TranslationResult) b,
        assocGet st.userRoles sid = some b → b.room = data.room →
        (translationEvents (audioMessageHandler st sid data (Except.ok stt)
            (fun _ _ _ => Except.ok tr)).1).map (fun m => m.original.language) =
          [data.language.getD "hi-IN"]) := by
  refine ⟨?_, ?_, ?_, ?_⟩
  · intro st sid data tr b hb hroom hlang
    unfold textMessageHandler
    rw [hb]
    simp only
    rw [if_neg (not_not_intro hroom), hlang]
    simp [translationEvents, orElseStr]
  · intro st sid data tr b l hb hroom hlang hl
    unfold textMessageHandler
    rw [hb]
    simp only
    rw [if_neg (not_not_intro hroom), hlang]
    simp [translationEvents, orElseStr, hl]
  · intro st sid data tr b hb hroom hlang
    unfold textMessageHandler
    rw [hb]
    simp only
    rw [if_neg (not_not_intro hroom), hlang]
    simp [translationEvents, orElseStr]
  · intro st sid data stt tr b hb hroom
    unfold audioMessageHandler
    rw [hb]
    simp only
    rw [if_neg (not_not_intro hroom)]
    simp [translationEvents]

/-- C7 witness: the guest bound to `ta-IN` who omits the language field
gets resolved source `hi-IN`, and when the field is supplied empty the
bound language `ta-IN` is used. -/
theorem C7_source_from_payload_witness :
    (translationEvents
        (textMessageHandler
          { activeRooms := [("r1", { hotelName := "H", users := [1] })],
            userRoles := [(1, { room := "r1", role := "guest", language := "ta-IN" })] }
          1 { room := "r1", role := "guest", text := some "hello",
              language := none, targetLanguage := none }
          (fun _ _ _ => Except.ok
            { text := "HELLO", source_language := "x",
              target_language := "y", confidence := 19/20 })).1).map
      (fun m => m.original.language) = ["hi-IN"] ∧
    (translationEvents
        (textMessageHandler
          { activeRooms := [("r1", { hotelName := "H", users := [1] })],
            userRoles := [(1, { room := "r1", role := "guest", language := "ta-IN" })] }
          1 { room := "r1", role := "guest", text := some "hello",
              language := some "", targetLanguage := none }
          (fun _ _ _ => Except.ok
            { text := "HELLO", source_language := "x",
              target_language := "y", confidence := 19/20 })).1).map
      (fun m => m.original.language) =
      [if ("guest" : String) = "guest" then "ta-IN" else "en-IN"] :=
  ⟨C7_source_from_payload.1 _ 1 _ _
      { room := "r1", role := "guest", language := "ta-IN" } (by decide) (by decide) rfl,
   C7_source_from_payload.2.2.1 _ 1 _ _
      { room := "r1", role := "guest", language := "ta-IN" } (by decide) (by decide) rfl⟩

/- ------------------------------ Claim C8 --------------------------------- -/

/-- C8 counterexample: the second (unvalidated) `join_room` handler, given
a join with the required `role` field missing, emits no error and mutates
state: it stores a binding with the missing role and creates the room. -/
theorem C8_counterexample :
    joinRoomHandler2 { activeRooms := [], userRoles := [] } 1
        { room := "r1", role := none, language := none } =
      ({ activeRooms := [("r1", { hotelName := "Unknown Hotel", users := [1] })],
         userRoles := [(1, { room := "r1", role := none, language := "hi-IN" })] },
       [(Recipient.toSender, Event.roomJoined "r1" none "Hindi"),
        (Recipient.toOthers "r1", Event.userJoined none "Hindi" 1),
        (Recipient.toRoom "r1", Event.roomStats 1 "Unknown Hotel")]) := by
  decide

/-- C8 amended: the validated `join_room` handler rejects a join missing
(or supplying empty) `room` or `role` with a single error event and no
state change; the second handler variant performs no such validation and
stores a binding even when `role` is missing. -/
theorem C8_join_validation_split :
    (∀ st sid (data : JoinMsg),
        strTruthy data.room = false ∨ strTruthy data.role = false →
        joinRoomHandler st sid data =
          (st, [(Recipient.toSender,
                 Event.errorEvt "room and role are required" none)])) ∧
    (∀ (st : ServerState2) sid (room : String) (lang : Option String),
        assocGet ((joinRoomHandler2 st sid
            { room := room, role := none, language := lang }).1).userRoles sid =
          some { room := room, role := none, language := lang.getD "hi-IN" }) := by
  constructor
  · intro st sid data h
    unfold joinRoomHandler
    rw [if_pos (by rcases h with h | h <;> simp [h])]
  · intro st sid room lang
    unfold joinRoomHandler2
    simp only
    exact assocGet_set_self _ _ _

/-- C8 witness: a join with `room` present but `role` missing is rejected
without mutation by the validated handler, while the unvalidated variant
stores the binding. -/
theorem C8_join_validation_split_witness :
    joinRoomHandler initState 1
        { room := some "r1", role := none, language := none } =
      (initState, [(Recipient.toSender,
                    Event.errorEvt "room and role are required" none)]) ∧
    assocGet ((joinRoomHandler2 { activeRooms := [], userRoles := [] } 1
        { room := "r1", role := none, language := none }).1).userRoles 1 =
      some { room := "r1", role := none, language := "hi-IN" } :=
  ⟨C8_join_validation_split.1 initState 1
      { room := some "r1", role := none, language := none } (Or.inr (by decide)),
   C8_join_validation_split.2 { activeRooms := [], userRoles := [] } 1 "r1" none⟩

/- ------------------------------ Claim C9 --------------------------------- -/

/-- C9 counterexample: `get_room_info` for the nonexistent room `r2`
produces no emission at all — the requester receives no response, not a
"not found" response. -/
theorem C9_counterexample :
    getRoomInfoHandler initState "r2" = [] := by
  decide

/-- C9 amended: `get_room_info` for a room that does not exist is silently
ignored (no event of any kind is emitted to the requester); only an
existing room produces a `room_info` reply. -/
theorem C9_room_info_silent :
    (∀ st room, assocGet st.activeRooms room = none →
        getRoomInfoHandler st room = []) ∧
    (∀ st room info, assocGet st.activeRooms room = some info →
        getRoomInfoHandler st room =
          [(Recipient.toSender,
            Event.roomInfoEvt info.hotelName info.users.length)]) := by
  constructor
  · intro st room h
    unfold getRoomInfoHandler
    rw [h]
  · intro st room info h
    unfold getRoomInfoHandler
    rw [h]

/-- C9 witness: a request for the deleted room `gone` yields no emission,
while the live room `r8` yields its `room_info` reply. -/
theorem C9_room_info_silent_witness :
    getRoomInfoHandler
      { activeRooms := [("r8", { hotelName := "H", users := [5] })],
        userRoles := [] } "gone" = [] ∧
    getRoomInfoHandler
      { activeRooms := [("r8", { hotelName := "H", users := [5] })],
        userRoles := [] } "r8" =
      [(Recipient.toSender, Event.roomInfoEvt "H" 1)] :=
  ⟨C9_room_info_silent.1 _ "gone" (by decide),
   C9_room_info_silent.2 _ "r8" { hotelName := "H", users := [5] } (by decide)⟩
